import Mathlib

/-!
Shallow embedding of `src/customer_journey.py` (BlackRoad Customer Journey
Mapper) and proofs about its journey-tracking and analytics operations.

Modelling conventions:
* SQLite rows become Lean structures; the five tables become lists inside a
  `Storage` record.  SQL `TEXT` timestamps stay `String`s, compared with the
  lexicographic order (SQLite binary collation agrees with it on ASCII).
* Python floats (`conversion_value`, rates, averages) are modelled as `ℚ`;
  Python `round(x, 2)` is modelled as round-half-to-even on `ℚ`.
* `ORDER BY position` is modelled by a stable insertion sort on the stored
  row list, matching SQLite's stable behaviour on equal keys.
* Freshly generated identifiers and clock readings (`uuid4`,
  `datetime.utcnow`) are passed as explicit arguments.
-/

namespace CustomerJourney

/-- Row of the `funnel_stages` table / dataclass `FunnelStage`. -/
structure FunnelStage where
  id : String
  name : String
  position : Int
  description : String
  entry_event : String
  exit_event : String
  deriving DecidableEq

/-- Row of the `sessions` table / dataclass `CustomerSession`. -/
structure Session where
  id : String
  customer_id : String
  start_time : String
  end_time : Option String
  channel : String
  device : String
  converted : Bool
  conversion_value : ℚ
  deriving DecidableEq

/-- Row of the `touchpoints` table / dataclass `Touchpoint`
(the opaque `metadata` JSON blob is kept as its serialized string). -/
structure Touchpoint where
  id : String
  session_id : String
  customer_id : String
  channel : String
  page : String
  event_type : String
  timestamp : String
  duration_ms : Int
  metadata : String
  deriving DecidableEq

/-- Row of the `conversion_paths` table / dataclass `ConversionPath`. -/
structure ConversionPath where
  id : String
  session_id : String
  stages_visited : List String
  path_signature : String
  converted : Bool
  created_at : String
  deriving DecidableEq

/-- Row of the `dropoff_events` table / dataclass `DropoffEvent`. -/
structure DropoffEvent where
  id : String
  session_id : String
  stage_id : String
  stage_name : String
  timestamp : String
  reason : String
  deriving DecidableEq

/-- The five-table database state behind `CustomerJourneyMapper`. -/
structure Storage where
  funnel_stages : List FunnelStage
  sessions : List Session
  touchpoints : List Touchpoint
  conversion_paths : List ConversionPath
  dropoff_events : List DropoffEvent
  deriving DecidableEq

/-- The comparison behind SQL `ORDER BY position`. -/
def stageLE (a b : FunnelStage) : Prop := a.position ≤ b.position

instance : DecidableRel stageLE := fun a b =>
  inferInstanceAs (Decidable (a.position ≤ b.position))

instance : IsTotal FunnelStage stageLE := ⟨fun a b => le_total a.position b.position⟩

instance : IsTrans FunnelStage stageLE :=
  ⟨fun _ _ _ hab hbc => le_trans hab hbc⟩

/-- Query `SELECT * FROM funnel_stages ... ORDER BY position` (stable on ties,
as SQLite returns rows of equal key in storage order). -/
def stagesByPosition (l : List FunnelStage) : List FunnelStage :=
  List.insertionSort stageLE l

/-- Lexicographic comparison of character lists, by code point —
SQLite's BINARY collation on the ASCII timestamps this system stores. -/
def charsLt : List Char → List Char → Bool
  | [], [] => false
  | [], _ :: _ => true
  | _ :: _, [] => false
  | a :: as, b :: bs =>
      if a.toNat < b.toNat then true
      else if b.toNat < a.toNat then false
      else charsLt as bs

/-- SQL filter `timestamp >= cutoff` on TEXT columns. -/
def inWindow (ts cutoff : String) : Bool := !(charsLt ts.data cutoff.data)

/-- Stage-transition lookup of `record_touchpoint`:
`SELECT * FROM funnel_stages WHERE entry_event = ? ORDER BY position` and
`fetchone()`, i.e. the first row of the sorted table matching the event. -/
def stageForEvent (stages : List FunnelStage) (event_type : String) :
    Option FunnelStage :=
  (stagesByPosition stages).find? (fun st => st.entry_event == event_type)

/-- The optional stage-transition part of `record_touchpoint`'s result dict. -/
structure StageInfo where
  stage_entered : String
  position : Int
  stage_id : String
  deriving DecidableEq

/-- Model of `CustomerJourneyMapper.record_touchpoint`: unconditionally append the
touchpoint row, then report the matched stage (if any). -/
def record_touchpoint (σ : Storage) (tp : Touchpoint) :
    Storage × Option StageInfo :=
  ({ σ with touchpoints := σ.touchpoints ++ [tp] },
   (stageForEvent σ.funnel_stages tp.event_type).map
     (fun st => ⟨st.name, st.position, st.id⟩))

/-- The `stages_visited` query of `end_session`:
`SELECT DISTINCT fs.* FROM touchpoints tp JOIN funnel_stages fs ON
tp.event_type = fs.entry_event WHERE tp.session_id = ? ORDER BY fs.position`.
Each stored stage row appears at most once (DISTINCT), in position order. -/
def stagesVisited (stages : List FunnelStage) (tps : List Touchpoint)
    (sid : String) : List FunnelStage :=
  (stagesByPosition stages).filter
    (fun st => tps.any (fun tp =>
      tp.session_id == sid && tp.event_type == st.entry_event))

/-- The stage names visited by a session, in ascending position order. -/
def visitedNames (σ : Storage) (sid : String) : List String :=
  (stagesVisited σ.funnel_stages σ.touchpoints sid).map (fun st => st.name)

/-- Expression `" → ".join(stages_visited) if stages_visited else "direct"`. -/
def pathSignatureOf (names : List String) : String :=
  if names.isEmpty then "direct" else String.intercalate " → " names

/-- Model of `CustomerJourneyMapper.end_session`: close the session row, insert one
ConversionPath, and for non-converted sessions insert a DropoffEvent for the
first registered stage (ascending position) whose name was not visited. -/
def end_session (σ : Storage) (sid : String) (conv : Bool) (value : ℚ)
    (path_id drop_id now : String) : Storage × ConversionPath :=
  let sessions' := σ.sessions.map (fun s =>
    if s.id == sid then
      { s with end_time := some now, converted := conv, conversion_value := value }
    else s)
  let names := visitedNames σ sid
  let sig := pathSignatureOf names
  let path : ConversionPath := ⟨path_id, sid, names, sig, conv, now⟩
  let dropoffs' :=
    if conv then σ.dropoff_events
    else
      match (stagesByPosition σ.funnel_stages).find?
          (fun st => !(names.contains st.name)) with
      | some st =>
          σ.dropoff_events ++ [⟨drop_id, sid, st.id, st.name, now, "stage_not_reached"⟩]
      | none => σ.dropoff_events
  ({ σ with sessions := sessions',
            conversion_paths := σ.conversion_paths ++ [path],
            dropoff_events := dropoffs' },
   path)

/-- Round-half-to-even to an integer; with `round2` below this models
Python's `round(x, 2)` on the exact rational value. -/
def bround (y : ℚ) : ℤ :=
  let f := ⌊y⌋
  let r := y - (f : ℚ)
  if r < 1/2 then f
  else if 1/2 < r then f + 1
  else if Even f then f else f + 1

/-- Python `round(x, 2)`, on `ℚ`. -/
def round2 (q : ℚ) : ℚ := ((bround (q * 100) : ℤ) : ℚ) / 100

/-- The `entry_count` query of `analyze_funnel`:
`SELECT COUNT(DISTINCT tp.session_id) FROM touchpoints tp JOIN sessions s ON
tp.session_id = s.id WHERE tp.event_type = ? AND s.start_time >= ?`. -/
def entryCount (σ : Storage) (cutoff ev : String) : Nat :=
  ((σ.touchpoints.filter (fun tp => tp.event_type == ev &&
      σ.sessions.any (fun s => s.id == tp.session_id && inWindow s.start_time cutoff))).map
    (fun tp => tp.session_id)).dedup.length

/-- Last-stage `exit_count` query of `analyze_funnel`:
`SELECT COUNT(DISTINCT s.id) FROM sessions s JOIN touchpoints tp ON
s.id = tp.session_id WHERE s.converted = 1 AND tp.event_type = ? AND
s.start_time >= ?`. -/
def lastStageExit (σ : Storage) (cutoff ev : String) : Nat :=
  ((σ.sessions.filter (fun s => s.converted && inWindow s.start_time cutoff &&
      σ.touchpoints.any (fun tp => tp.session_id == s.id && tp.event_type == ev))).map
    (fun s => s.id)).dedup.length

/-- The `duration_ms` values averaged by `analyze_funnel`'s AVG query. -/
def stageDurations (σ : Storage) (cutoff ev : String) : List ℚ :=
  (σ.touchpoints.filter (fun tp => tp.event_type == ev &&
      σ.sessions.any (fun s => s.id == tp.session_id && inWindow s.start_time cutoff))).map
    (fun tp => (tp.duration_ms : ℚ))

/-- Expression `AVG(duration_ms) ... or 0.0` (SQL AVG is NULL on the empty set). -/
def avgDuration (σ : Storage) (cutoff ev : String) : ℚ :=
  let l := stageDurations σ cutoff ev
  if l.isEmpty then 0 else l.sum / (l.length : ℚ)

/-- One result dict of `analyze_funnel`. -/
structure FunnelRow where
  stage_id : String
  stage_name : String
  position : Int
  entry_count : Nat
  exit_count : Nat
  conversion_rate : ℚ
  drop_off_rate : ℚ
  avg_duration_ms : ℚ
  deriving DecidableEq

/-- The per-stage body of `analyze_funnel`'s loop, given the stage's
`exit_count`. -/
def mkFunnelRow (σ : Storage) (cutoff : String) (st : FunnelStage)
    (exits : Nat) : FunnelRow :=
  let entry := entryCount σ cutoff st.entry_event
  let conversion_rate : ℚ := if entry = 0 then 0 else (exits : ℚ) / (entry : ℚ) * 100
  let drop_off_rate : ℚ := 100 - conversion_rate
  ⟨st.id, st.name, st.position, entry, exits,
   round2 conversion_rate, round2 drop_off_rate,
   round2 (avgDuration σ cutoff st.entry_event)⟩

/-- The loop of `analyze_funnel` over the position-ordered stages: a non-last
stage's `exit_count` is the next stage's entry query, the last stage's is
the converted-sessions query. -/
def funnelRows (σ : Storage) (cutoff : String) : List FunnelStage → List FunnelRow
  | [] => []
  | [st] => [mkFunnelRow σ cutoff st (lastStageExit σ cutoff st.entry_event)]
  | st :: st2 :: rest =>
      mkFunnelRow σ cutoff st (entryCount σ cutoff st2.entry_event) ::
        funnelRows σ cutoff (st2 :: rest)

/-- Model of `CustomerJourneyMapper.analyze_funnel` (the cutoff string stands for
`utcnow() - timedelta(days=days)` in ISO form). -/
def analyze_funnel (σ : Storage) (cutoff : String) : List FunnelRow :=
  funnelRows σ cutoff (stagesByPosition σ.funnel_stages)

/-- Value of the digit characters of a string prefix. -/
def digitsToNat (ds : List Char) : Nat :=
  ds.foldl (fun acc c => acc * 10 + (c.toNat - 48)) 0

/-- SQLite `CAST(text AS INTEGER)`: optional leading spaces and sign, then
the longest digit prefix; anything else contributes 0. -/
def sqliteCastInt (cs : List Char) : Int :=
  let cs2 := cs.dropWhile (fun c => c == ' ')
  match cs2 with
  | '-' :: rest => -(digitsToNat (rest.takeWhile Char.isDigit) : Int)
  | '+' :: rest => (digitsToNat (rest.takeWhile Char.isDigit) : Int)
  | _ => (digitsToNat (cs2.takeWhile Char.isDigit) : Int)

/-- Expression `CAST(SUBSTR(timestamp, 12, 2) AS INTEGER)` of `analyze_dropoffs`
(SQL SUBSTR is 1-indexed). -/
def hourOfTs (ts : String) : Int := sqliteCastInt ((ts.data.drop 11).take 2)

/-- Query `SELECT ... FROM dropoff_events WHERE stage_id = ?`. -/
def dropoffsAt (σ : Storage) (sid : String) : List DropoffEvent :=
  σ.dropoff_events.filter (fun de => de.stage_id == sid)

/-- SQL `GROUP BY` with `COUNT(*)`, as key/count pairs (the ORDER BY of the
source only permutes the group list and is not modelled). -/
def countBy {α : Type} [DecidableEq α] (keys : List α) : List (α × Nat) :=
  keys.dedup.map (fun k => (k, keys.count k))

/-- Result dict of `analyze_dropoffs`. -/
structure DropoffAnalysis where
  stage_id : String
  reasons : List (String × Nat)
  time_of_day : List (Int × Nat)
  by_channel : List (String × Nat)
  total_dropoffs : Nat
  deriving DecidableEq

/-- Model of `CustomerJourneyMapper.analyze_dropoffs`: three aggregations over the
dropoff events of one stage; the channel one joins through `sessions`,
so events whose session row is missing fall out of it. -/
def analyze_dropoffs (σ : Storage) (sid : String) : DropoffAnalysis :=
  let rows := dropoffsAt σ sid
  let reasons := countBy (rows.map (fun de => de.reason))
  let times := countBy (rows.map (fun de => hourOfTs de.timestamp))
  let channels := countBy (rows.filterMap (fun de =>
    (σ.sessions.find? (fun s => s.id == de.session_id)).map (fun s => s.channel)))
  ⟨sid, reasons, times, channels, (reasons.map Prod.snd).sum⟩

/-- Query `SELECT ... FROM sessions WHERE converted = 1`. -/
def convertedSessions (σ : Storage) : List Session :=
  σ.sessions.filter (fun s => s.converted)

/-- The customers produced by `GROUP BY customer_id` over converted
sessions. -/
def ltvCustomers (σ : Storage) : List String :=
  ((convertedSessions σ).map (fun s => s.customer_id)).dedup

/-- Total `SUM(conversion_value)` of one customer's converted sessions. -/
def customerLtv (σ : Storage) (cid : String) : ℚ :=
  (((convertedSessions σ).filter (fun s => s.customer_id == cid)).map
    (fun s => s.conversion_value)).sum

/-- The `(customer_id, ltv)` rows of `compute_customer_ltv_segments`'s
grouping query. -/
def ltvRows (σ : Storage) : List (String × ℚ) :=
  (ltvCustomers σ).map (fun c => (c, customerLtv σ c))

/-- Value `min_ltv = min(ltvs)` of `compute_customer_ltv_segments`
(0 is never used: the caller returns early on an empty row set). -/
def ltvMin (σ : Storage) : ℚ :=
  match ltvRows σ with
  | [] => 0
  | r :: rs => ((r :: rs).map Prod.snd).foldl min r.2

/-- Value `max_ltv = max(ltvs)`. -/
def ltvMax (σ : Storage) : ℚ :=
  match ltvRows σ with
  | [] => 0
  | r :: rs => ((r :: rs).map Prod.snd).foldl max r.2

/-- Value `width = (max_ltv - min_ltv) / buckets if max_ltv > min_ltv else 1.0`. -/
def ltvWidth (σ : Storage) (buckets : Nat) : ℚ :=
  if ltvMin σ < ltvMax σ then (ltvMax σ - ltvMin σ) / (buckets : ℚ) else 1

/-- One report dict of `compute_customer_ltv_segments`: exact bucket bounds
`lo`/`hi` (used for membership) plus the rounded reported bounds. -/
structure LtvSegment where
  bucket : Nat
  lo : ℚ
  hi : ℚ
  ltv_min : ℚ
  ltv_max : ℚ
  customer_count : Nat
  deriving DecidableEq

/-- Loop body of `compute_customer_ltv_segments` at bucket index `i`:
half-open membership `lo <= ltv < hi`, except the last bucket which is
re-computed as the closed `lo <= ltv <= hi`. -/
def ltvSegment (σ : Storage) (buckets i : Nat) : LtvSegment :=
  let lo := ltvMin σ + (i : ℚ) * ltvWidth σ buckets
  let hi := lo + ltvWidth σ buckets
  let members :=
    if i = buckets - 1 then
      ((ltvRows σ).filter (fun p => decide (lo ≤ p.2) && decide (p.2 ≤ hi))).map Prod.fst
    else
      ((ltvRows σ).filter (fun p => decide (lo ≤ p.2) && decide (p.2 < hi))).map Prod.fst
  ⟨i + 1, lo, hi, round2 lo, round2 hi, members.length⟩

/-- Model of `CustomerJourneyMapper.compute_customer_ltv_segments`. -/
def compute_customer_ltv_segments (σ : Storage) (buckets : Nat) :
    List LtvSegment :=
  if ltvRows σ = [] then []
  else (List.range buckets).map (ltvSegment σ buckets)

/-- Membership in bucket `i`'s range as the source's filters test it:
half-open below the last bucket, closed for the last bucket. -/
def inBucket (σ : Storage) (b i : Nat) (t : ℚ) : Prop :=
  ltvMin σ + (i : ℚ) * ltvWidth σ b ≤ t ∧
    (if i = b - 1 then t ≤ ltvMin σ + (i : ℚ) * ltvWidth σ b + ltvWidth σ b
     else t < ltvMin σ + (i : ℚ) * ltvWidth σ b + ltvWidth σ b)

/-- Numeric value of a two-digit string field. -/
def digit2 (a b : Char) : Option Nat :=
  if a.isDigit && b.isDigit then some ((a.toNat - 48) * 10 + (b.toNat - 48))
  else none

/-- Numeric value of a four-digit string field. -/
def digit4 (a b c d : Char) : Option Nat :=
  if a.isDigit && b.isDigit && c.isDigit && d.isDigit then
    some (((a.toNat - 48) * 10 + (b.toNat - 48)) * 100 +
      (c.toNat - 48) * 10 + (d.toNat - 48))
  else none

/-- Gregorian leap year, as `calendar.isleap` / `datetime` use it. -/
def isLeap (y : Nat) : Bool := (y % 4 == 0 && y % 100 != 0) || y % 400 == 0

/-- Days in a month of the proleptic Gregorian calendar. -/
def daysInMonth (y mo : Nat) : Nat :=
  if mo = 2 then (if isLeap y then 29 else 28)
  else if mo = 4 ∨ mo = 6 ∨ mo = 9 ∨ mo = 11 then 30
  else 31

/-- Python `datetime` date validation (`MINYEAR = 1`; a four-digit year is
automatically at most 9999). -/
def validDate (y mo dy : Nat) : Bool :=
  decide (1 ≤ y) && decide (1 ≤ mo) && decide (mo ≤ 12) &&
    decide (1 ≤ dy) && decide (dy ≤ daysInMonth y mo)

/-- Accepted fractional-seconds tail: nothing, or a dot and 1–6 digits
(`utcnow().isoformat()` writes 6). -/
def fracOk (cs : List Char) : Bool :=
  match cs with
  | [] => true
  | '.' :: ds => !ds.isEmpty && decide (ds.length ≤ 6) && ds.all Char.isDigit
  | _ => false

/-- Validation of the `:MM[:SS[.ffffff]]` tail after the hour digits. -/
def minSecOk : List Char → Bool
  | [] => true
  | ':' :: m1 :: m2 :: rest2 =>
      (match digit2 m1 m2 with
       | none => false
       | some mi =>
           decide (mi ≤ 59) &&
             (match rest2 with
              | [] => true
              | ':' :: s1 :: s2 :: rest3 =>
                  (match digit2 s1 s2 with
                   | none => false
                   | some ss => decide (ss ≤ 59) && fracOk rest3)
              | _ => false))
  | _ => false

/-- Time-of-day part of `datetime.fromisoformat`, returning the hour:
absent (midnight), or a one-char separator and `HH`, `HH:MM` or
`HH:MM:SS[.ffffff]`, range-checked. -/
def parseTime : List Char → Option Nat
  | [] => some 0
  | _ :: h1 :: h2 :: rest =>
      (match digit2 h1 h2 with
       | none => none
       | some hh => if decide (hh ≤ 23) && minSecOk rest then some hh else none)
  | _ => none

/-- Days since 1970-01-01 of a Gregorian date (civil-days algorithm, as
`datetime.date.toordinal` shifted to the Unix epoch). -/
def daysFromCivil (y mo dy : Nat) : Int :=
  let y2 := if mo ≤ 2 then y - 1 else y
  let era := y2 / 400
  let yoe := y2 % 400
  let mp := if mo ≤ 2 then mo + 9 else mo - 3
  let doy := (153 * mp + 2) / 5 + dy - 1
  let doe := yoe * 365 + yoe / 4 - yoe / 100 + doy
  ((era * 146097 + doe : Nat) : Int) - 719468

/-- Python `datetime.weekday()`: Monday = 0 … Sunday = 6
(1970-01-01 was a Thursday, weekday 3). -/
def pyWeekday (y mo dy : Nat) : Nat := ((daysFromCivil y mo dy + 3) % 7).toNat

/-- The leading `YYYY-MM-DD` of an ISO timestamp, with the remaining
characters. -/
def parseDate10 : List Char → Option (Nat × Nat × Nat × List Char)
  | y1 :: y2 :: y3 :: y4 :: c1 :: m1 :: m2 :: c2 :: d1 :: d2 :: rest =>
      if c1 == '-' && c2 == '-' then
        (match digit4 y1 y2 y3 y4, digit2 m1 m2, digit2 d1 d2 with
         | some y, some mo, some dy => some (y, mo, dy, rest)
         | _, _, _ => none)
      else none
  | _ => none

/-- Model of `datetime.fromisoformat(ts)` followed by
`(dt.weekday(), dt.hour)`, `none` on the strings the source's
`except (ValueError, TypeError)` swallows. -/
def parseTs (s : String) : Option (Nat × Nat) :=
  match parseDate10 s.data with
  | none => none
  | some (y, mo, dy, rest) =>
      (match parseTime rest with
       | none => none
       | some hh =>
           if validDate y mo dy then some (pyWeekday y mo dy, hh) else none)

/-- One `matrix[d][h] += 1` update on a row. -/
def bumpRow (l : List Nat) (h : Nat) : List Nat := l.set h (l.getD h 0 + 1)

/-- Update `matrix[d][h] += 1` on the 7×24 matrix. -/
def bumpMatrix (m : List (List Nat)) (d h : Nat) : List (List Nat) :=
  m.set d (bumpRow (m.getD d []) h)

/-- Matrix `[[0] * 24 for _ in range(7)]`. -/
def emptyMatrix : List (List Nat) := List.replicate 7 (List.replicate 24 0)

/-- Loop body of `get_journey_heatmap`: parse the timestamp and bump the
matching cell; malformed timestamps are skipped. -/
def heatStep (m : List (List Nat)) (tp : Touchpoint) : List (List Nat) :=
  match parseTs tp.timestamp with
  | some (d, h) => bumpMatrix m d h
  | none => m

/-- The filled heatmap matrix. -/
def heatMatrix (tps : List Touchpoint) : List (List Nat) :=
  tps.foldl heatStep emptyMatrix

/-- Total `sum(sum(row) for row in matrix)`. -/
def matrixTotal (m : List (List Nat)) : Nat := (m.map List.sum).sum

/-- Result dict of `get_journey_heatmap` (the formatted `hour_labels`
strings are presentation only and not modelled). -/
structure Heatmap where
  matrix : List (List Nat)
  day_labels : List String
  total_touchpoints : Nat
  deriving DecidableEq

/-- Model of `CustomerJourneyMapper.get_journey_heatmap` (the cutoff string stands
for `utcnow() - timedelta(hours=hours)` in ISO form). -/
def get_journey_heatmap (σ : Storage) (cutoff : String) : Heatmap :=
  let rows := σ.touchpoints.filter (fun tp => inWindow tp.timestamp cutoff)
  let matrix := heatMatrix rows
  ⟨matrix, ["Mon", "Tue", "Wed", "Thu", "Fri", "Sat", "Sun"], matrixTotal matrix⟩

/-! Concrete storages used to instantiate the theorems. -/

/-- A funnel stage with the fields the examples care about. -/
def sampleStage (i n : String) (p : Int) (ev : String) : FunnelStage :=
  ⟨i, n, p, "", ev, ""⟩

/-- A session row for the examples. -/
def sampleSession (i cid ch : String) (conv : Bool) (v : ℚ) : Session :=
  ⟨i, cid, "2024-01-01T00:00:00", none, ch, "desktop", conv, v⟩

/-- A touchpoint row for the examples. -/
def sampleTp (i sid ev : String) : Touchpoint :=
  ⟨i, sid, "c1", "web", "/p", ev, "2024-01-02T10:30:00", 5, "\x7b\x7d"⟩

/-- Two stages; session x1 triggered only stage A, sessions x2/x3 only
stage B (so stage A's chained exit count exceeds its entry count). -/
def storageA : Storage :=
  ⟨[sampleStage "fs1" "A" 1 "a", sampleStage "fs2" "B" 2 "b"],
   [sampleSession "x1" "c1" "organic" false 0,
    sampleSession "x2" "c2" "email" false 0,
    sampleSession "x3" "c3" "email" false 0],
   [sampleTp "t1" "x1" "a", sampleTp "t2" "x2" "b", sampleTp "t3" "x3" "b"],
   [], []⟩

/-- One dropoff event whose `session_id` has no session row. -/
def storageOrphan : Storage :=
  ⟨[], [], [], [],
   [⟨"d1", "ghost", "stX", "A", "2024-01-01T10:00:00", "stage_not_reached"⟩]⟩

/-- Two converted customers with distinct totals, for the LTV example. -/
def storageLtv : Storage :=
  ⟨[],
   [sampleSession "y1" "cA" "organic" true 10,
    sampleSession "y2" "cB" "email" true 30,
    sampleSession "y3" "cB" "email" true 10],
   [], [], []⟩

/-- Sessions that are all unconverted, for the empty-LTV example. -/
def storageNoConv : Storage :=
  ⟨[], [sampleSession "z1" "cA" "organic" false 5], [], [], []⟩

/-- One dropoff event whose session row exists, for the C8 instance. -/
def storageDrop : Storage :=
  ⟨[], [sampleSession "s1" "cA" "organic" false 0], [], [],
   [⟨"d1", "s1", "stY", "A", "2024-01-01T10:00:00", "stage_not_reached"⟩]⟩

/-- Placeholder row for out-of-range `List.getD` reads. -/
def defaultRow : FunnelRow := ⟨"", "", 0, 0, 0, 0, 0, 0⟩

/-- Placeholder stage for out-of-range `List.getD` reads. -/
def defaultStage : FunnelStage := ⟨"", "", 0, "", "", ""⟩

/-- Placeholder segment for out-of-range `List.getD` reads. -/
def defaultSegment : LtvSegment := ⟨0, 0, 0, 0, 0, 0⟩

/-! ## General helper lemmas -/

theorem perm_any {α : Type} {l₁ l₂ : List α} (h : l₁.Perm l₂) (f : α → Bool) :
    l₁.any f = l₂.any f := by
  cases hb : l₂.any f with
  | false =>
      rw [List.any_eq_false] at hb ⊢
      intro x hx
      exact hb x (h.mem_iff.mp hx)
  | true =>
      rw [List.any_eq_true] at hb ⊢
      obtain ⟨x, hx, hfx⟩ := hb
      exact ⟨x, h.mem_iff.mpr hx, hfx⟩

theorem stagesByPosition_perm (l : List FunnelStage) :
    (stagesByPosition l).Perm l :=
  List.perm_insertionSort stageLE l

theorem stagesByPosition_sorted (l : List FunnelStage) :
    List.Sorted stageLE (stagesByPosition l) :=
  List.sorted_insertionSort stageLE l

theorem find?_min_position {p : FunnelStage → Bool} :
    ∀ {l : List FunnelStage}, List.Sorted stageLE l → ∀ {st : FunnelStage},
      l.find? p = some st → ∀ st' ∈ l, p st' = true → st.position ≤ st'.position := by
  intro l
  induction l with
  | nil => intro _ st h; simp at h
  | cons a l ih =>
      intro hs st hfind st' hmem hp
      rw [List.sorted_cons] at hs
      by_cases hpa : p a = true
      · rw [List.find?_cons_of_pos _ hpa] at hfind
        obtain rfl : a = st := by injection hfind
        rcases List.mem_cons.mp hmem with rfl | hmem'
        · exact le_refl _
        · exact hs.1 st' hmem'
      · rw [List.find?_cons_of_neg _ hpa] at hfind
        rcases List.mem_cons.mp hmem with rfl | hmem'
        · exact absurd hp hpa
        · exact ih hs.2 hfind st' hmem' hp

theorem find?_of_exists {α : Type} {p : α → Bool} {l : List α}
    (h : ∃ x ∈ l, p x = true) : ∃ a, l.find? p = some a := by
  cases hf : l.find? p with
  | some a => exact ⟨a, rfl⟩
  | none =>
      obtain ⟨x, hx, hpx⟩ := h
      exact absurd hpx (List.find?_eq_none.mp hf x hx)

/-! ## C1: path and dropoff construction at session close -/

theorem end_session_dropoffs (σ : Storage) (sid : String) (conv : Bool)
    (value : ℚ) (pid did now : String) :
    (end_session σ sid conv value pid did now).1.dropoff_events =
      (if conv then σ.dropoff_events
       else
         match (stagesByPosition σ.funnel_stages).find?
             (fun st => !((visitedNames σ sid).contains st.name)) with
         | some st =>
             σ.dropoff_events ++ [⟨did, sid, st.id, st.name, now, "stage_not_reached"⟩]
         | none => σ.dropoff_events) := rfl

/-- C1: every `end_session` call appends exactly one ConversionPath record;
when `converted = false` at most one DropoffEvent is appended — for a
registered stage of minimal position among those whose name is absent from
the visited names, with reason "stage_not_reached" — and no DropoffEvent is
appended when every registered stage was visited. -/
theorem c1_end_session_path_dropoff (σ : Storage) (sid : String) (conv : Bool)
    (value : ℚ) (pid did now : String) :
    ((end_session σ sid conv value pid did now).1.conversion_paths
        = σ.conversion_paths ++ [(end_session σ sid conv value pid did now).2])
    ∧ (end_session σ sid conv value pid did now).1.dropoff_events.length
        ≤ σ.dropoff_events.length + 1
    ∧ (conv = true →
        (end_session σ sid conv value pid did now).1.dropoff_events
          = σ.dropoff_events)
    ∧ (conv = false → (∀ st ∈ σ.funnel_stages, st.name ∈ visitedNames σ sid) →
        (end_session σ sid conv value pid did now).1.dropoff_events
          = σ.dropoff_events)
    ∧ (conv = false →
        (end_session σ sid conv value pid did now).1.dropoff_events
          ≠ σ.dropoff_events →
        ∃ st, st ∈ σ.funnel_stages ∧ st.name ∉ visitedNames σ sid ∧
          (end_session σ sid conv value pid did now).1.dropoff_events
            = σ.dropoff_events ++ [⟨did, sid, st.id, st.name, now, "stage_not_reached"⟩] ∧
          ∀ st' ∈ σ.funnel_stages, st'.name ∉ visitedNames σ sid →
            st.position ≤ st'.position) := by
  refine ⟨rfl, ?_, ?_, ?_, ?_⟩
  · rw [end_session_dropoffs]
    rcases conv with _ | _
    · simp only [Bool.false_eq_true, if_false]
      cases hf : (stagesByPosition σ.funnel_stages).find?
          (fun st => !((visitedNames σ sid).contains st.name)) with
      | some st => simp
      | none => simp
    · simp
  · intro hc; subst hc; rfl
  · intro hc hall; subst hc
    rw [end_session_dropoffs]
    simp only [Bool.false_eq_true, if_false]
    have hnone : (stagesByPosition σ.funnel_stages).find?
        (fun st => !((visitedNames σ sid).contains st.name)) = none := by
      rw [List.find?_eq_none]
      intro st hmem
      have : st ∈ σ.funnel_stages := (stagesByPosition_perm _).mem_iff.mp hmem
      simp only [Bool.not_eq_true', Bool.not_eq_false]
      exact List.elem_eq_true_of_mem (hall st this)
    rw [hnone]
  · intro hc hne; subst hc
    rw [end_session_dropoffs] at hne ⊢
    simp only [Bool.false_eq_true, if_false] at hne ⊢
    cases hf : (stagesByPosition σ.funnel_stages).find?
        (fun st => !((visitedNames σ sid).contains st.name)) with
    | none => rw [hf] at hne; exact absurd rfl hne
    | some st =>
        refine ⟨st, (stagesByPosition_perm _).mem_iff.mp (List.mem_of_find?_eq_some hf),
          ?_, rfl, ?_⟩
        · have hc := List.find?_some hf
          simpa using hc
        · intro st' hmem' habs
          refine find?_min_position (stagesByPosition_sorted _) hf st'
            ((stagesByPosition_perm _).mem_iff.mpr hmem') ?_
          simpa using habs

/-- Closed instance of C1: closing the non-converted session x1 (which
visited only stage A) appends the dropoff for stage B. -/
theorem c1_end_session_path_dropoff_witness :
    ∃ st, st ∈ storageA.funnel_stages ∧ st.name ∉ visitedNames storageA "x1" ∧
      (end_session storageA "x1" false 0 "p1" "d1" "T").1.dropoff_events
        = storageA.dropoff_events
            ++ [⟨"d1", "x1", st.id, st.name, "T", "stage_not_reached"⟩] ∧
      ∀ st' ∈ storageA.funnel_stages, st'.name ∉ visitedNames storageA "x1" →
        st.position ≤ st'.position :=
  (c1_end_session_path_dropoff storageA "x1" false 0 "p1" "d1" "T").2.2.2.2
    rfl (by decide)

/-! ## C2: path signature -/

/-- C2: at close, the stored `path_signature` is the join of the visited
stage names; it is `"direct"` exactly when no registered stage's
`entry_event` matches any of the session's touchpoints, otherwise the
deduplicated matched names joined by `" → "` in ascending position order;
and it does not depend on the order in which touchpoints were recorded. -/
theorem c2_path_signature (σ : Storage) (tps' : List Touchpoint) (sid : String)
    (conv : Bool) (value : ℚ) (pid did now : String)
    (hperm : σ.touchpoints.Perm tps') :
    ((end_session σ sid conv value pid did now).2.path_signature
        = pathSignatureOf (visitedNames σ sid))
    ∧ visitedNames { σ with touchpoints := tps' } sid = visitedNames σ sid
    ∧ ((∀ st ∈ σ.funnel_stages, ∀ tp ∈ σ.touchpoints,
          tp.session_id = sid → tp.event_type ≠ st.entry_event) →
        pathSignatureOf (visitedNames σ sid) = "direct")
    ∧ ((∃ st ∈ σ.funnel_stages, ∃ tp ∈ σ.touchpoints,
          tp.session_id = sid ∧ tp.event_type = st.entry_event) →
        pathSignatureOf (visitedNames σ sid)
          = String.intercalate " → " (visitedNames σ sid))
    ∧ List.Sorted stageLE (stagesVisited σ.funnel_stages σ.touchpoints sid)
    ∧ ((σ.funnel_stages.map (fun st => st.name)).Nodup →
        (visitedNames σ sid).Nodup) := by
  refine ⟨rfl, ?_, ?_, ?_, ?_, ?_⟩
  · show ((stagesVisited σ.funnel_stages tps' sid).map _) = _
    unfold visitedNames stagesVisited
    rw [List.filter_congr (fun st _ => perm_any hperm.symm
      (fun tp => tp.session_id == sid && tp.event_type == st.entry_event))]
  · intro hno
    have hnil : stagesVisited σ.funnel_stages σ.touchpoints sid = [] := by
      rw [stagesVisited, List.filter_eq_nil_iff]
      intro st hst
      rw [Bool.not_eq_true, List.any_eq_false]
      intro tp htp
      rw [Bool.not_eq_true, Bool.and_eq_false_iff]
      by_cases hsid : tp.session_id = sid
      · refine Or.inr ?_
        rw [beq_eq_false_iff_ne]
        exact hno st ((stagesByPosition_perm _).mem_iff.mp hst) tp htp hsid
      · exact Or.inl (beq_eq_false_iff_ne.mpr hsid)
    rw [visitedNames, hnil]
    rfl
  · intro hex
    obtain ⟨st, hst, tp, htp, hsid, hev⟩ := hex
    have hstmem : st ∈ stagesVisited σ.funnel_stages σ.touchpoints sid := by
      rw [stagesVisited, List.mem_filter]
      refine ⟨(stagesByPosition_perm _).mem_iff.mpr hst, ?_⟩
      rw [List.any_eq_true]
      exact ⟨tp, htp, by rw [Bool.and_eq_true, beq_iff_eq, beq_iff_eq]; exact ⟨hsid, hev⟩⟩
    have hne : visitedNames σ sid ≠ [] := by
      rw [visitedNames, Ne, List.map_eq_nil_iff]
      exact List.ne_nil_of_mem hstmem
    have hni : ¬((visitedNames σ sid).isEmpty = true) := by
      simpa [List.isEmpty_iff] using hne
    simp only [pathSignatureOf, if_neg hni]
  · exact List.Sorted.filter _ (stagesByPosition_sorted _)
  · intro hnd
    have h1 : ((stagesByPosition σ.funnel_stages).map (fun st => st.name)).Nodup :=
      (((stagesByPosition_perm σ.funnel_stages).map _).nodup_iff).mpr hnd
    exact ((List.filter_sublist _).map _).nodup h1

/-- Closed instance of C2: recording storageA's touchpoints in reverse
order leaves session x1's visited names unchanged. -/
theorem c2_path_signature_witness :
    visitedNames { storageA with
        touchpoints := [sampleTp "t3" "x3" "b", sampleTp "t2" "x2" "b",
          sampleTp "t1" "x1" "a"] } "x1" = visitedNames storageA "x1" :=
  (c2_path_signature storageA
    [sampleTp "t3" "x3" "b", sampleTp "t2" "x2" "b", sampleTp "t1" "x1" "a"]
    "x1" false 0 "p" "d" "T" (by decide)).2.1

/-! ## C6: touchpoint recording and stage detection -/

/-- C6: `record_touchpoint` appends the touchpoint unconditionally (no
session existence check) and leaves every other table unchanged; when at
least one stage's `entry_event` equals the event type the result carries
the fields of a matching stage of minimal position, and with no match the
result has no stage fields. -/
theorem c6_record_touchpoint (σ : Storage) (tp : Touchpoint) :
    ((record_touchpoint σ tp).1
        = { σ with touchpoints := σ.touchpoints ++ [tp] })
    ∧ ((∀ st ∈ σ.funnel_stages, st.entry_event ≠ tp.event_type) →
        (record_touchpoint σ tp).2 = none)
    ∧ ((∃ st ∈ σ.funnel_stages, st.entry_event = tp.event_type) →
        ∃ st, (record_touchpoint σ tp).2 = some ⟨st.name, st.position, st.id⟩ ∧
          st ∈ σ.funnel_stages ∧ st.entry_event = tp.event_type ∧
          ∀ st' ∈ σ.funnel_stages, st'.entry_event = tp.event_type →
            st.position ≤ st'.position) := by
  refine ⟨rfl, ?_, ?_⟩
  · intro hno
    have hf : (stagesByPosition σ.funnel_stages).find?
        (fun st => st.entry_event == tp.event_type) = none := by
      rw [List.find?_eq_none]
      intro st hst
      rw [Bool.not_eq_true, beq_eq_false_iff_ne]
      exact hno st ((stagesByPosition_perm _).mem_iff.mp hst)
    simp only [record_touchpoint, stageForEvent, hf]
    rfl
  · intro hex
    obtain ⟨st0, hst0, hev0⟩ := hex
    obtain ⟨st, hfind⟩ : ∃ a, (stagesByPosition σ.funnel_stages).find?
        (fun st => st.entry_event == tp.event_type) = some a :=
      find?_of_exists ⟨st0, (stagesByPosition_perm _).mem_iff.mpr hst0,
        beq_iff_eq.mpr hev0⟩
    have hp := List.find?_some hfind
    simp only [beq_iff_eq] at hp
    refine ⟨st, ?_, (stagesByPosition_perm _).mem_iff.mp
        (List.mem_of_find?_eq_some hfind), hp, ?_⟩
    · simp only [record_touchpoint, stageForEvent, hfind]
      rfl
    · intro st' hst' hev'
      exact find?_min_position (stagesByPosition_sorted _) hfind st'
        ((stagesByPosition_perm _).mem_iff.mpr hst') (beq_iff_eq.mpr hev')

/-- Closed instance of C6: recording event "b" (no matter the session)
reports stage B. -/
theorem c6_record_touchpoint_witness :
    ∃ st, (record_touchpoint storageA (sampleTp "t9" "ghost" "b")).2
        = some ⟨st.name, st.position, st.id⟩ ∧
      st ∈ storageA.funnel_stages ∧
      st.entry_event = (sampleTp "t9" "ghost" "b").event_type ∧
      ∀ st' ∈ storageA.funnel_stages,
        st'.entry_event = (sampleTp "t9" "ghost" "b").event_type →
          st.position ≤ st'.position :=
  (c6_record_touchpoint storageA (sampleTp "t9" "ghost" "b")).2.2
    ⟨sampleStage "fs2" "B" 2 "b", by decide, by decide⟩

/-! ## Rounding lemmas -/

theorem bround_def (y : ℚ) : bround y =
    if Int.fract y < 1/2 then ⌊y⌋
    else if 1/2 < Int.fract y then ⌊y⌋ + 1
    else if Even ⌊y⌋ then ⌊y⌋ else ⌊y⌋ + 1 := by
  unfold bround
  simp only [Int.self_sub_floor]

theorem bround_intCast (n : ℤ) : bround ((n : ℤ) : ℚ) = n := by
  rw [bround_def, Int.floor_intCast, Int.fract_intCast]
  norm_num

theorem bround_compl (y : ℚ) : bround (10000 - y) = 10000 - bround y := by
  rcases eq_or_ne (Int.fract y) 0 with hr | hr
  · obtain ⟨f, hf⟩ : ∃ f : ℤ, y = (f : ℚ) := by
      refine ⟨⌊y⌋, ?_⟩
      have h1 := Int.self_sub_floor y
      rw [hr] at h1
      linarith
    subst hf
    have h1 : (10000 : ℚ) - (f : ℚ) = ((10000 - f : ℤ) : ℚ) := by push_cast; ring
    rw [h1, bround_intCast, bround_intCast]
  · have hr0 : 0 < Int.fract y := lt_of_le_of_ne (Int.fract_nonneg y) (Ne.symm hr)
    have hr1 : Int.fract y < 1 := Int.fract_lt_one y
    have hy : y = (⌊y⌋ : ℚ) + Int.fract y := by
      have := Int.self_sub_floor y
      linarith
    have hfl : ⌊(10000 : ℚ) - y⌋ = 9999 - ⌊y⌋ := by
      rw [Int.floor_eq_iff]
      constructor
      · push_cast
        linarith
      · push_cast
        linarith
    have hfr : Int.fract ((10000 : ℚ) - y) = 1 - Int.fract y := by
      have h2 := Int.self_sub_floor ((10000 : ℚ) - y)
      rw [hfl] at h2
      push_cast at h2
      linarith
    rw [bround_def, bround_def, hfl, hfr]
    rcases lt_trichotomy (Int.fract y) (1/2) with h | h | h
    · rw [if_neg (by linarith), if_pos (by linarith), if_pos h]
      ring
    · rw [h]
      norm_num
      rcases Int.even_or_odd ⌊y⌋ with he | ho
      · have hne : ¬ Even (9999 - ⌊y⌋) := by
          rw [Int.even_sub]
          simp [he]
          decide
        rw [if_neg hne, if_pos he]
        ring
      · have hno : ¬ Even ⌊y⌋ := Int.not_even_iff_odd.mpr ho
        have hev : Even (9999 - ⌊y⌋) := by
          rw [Int.even_sub]
          constructor
          · intro h9; exact absurd h9 (by decide)
          · intro hc; exact absurd hc hno
        rw [if_pos hev, if_neg hno]
        ring
    · have hL : (1 : ℚ) - Int.fract y < 1/2 := by linarith
      rw [if_pos hL, if_neg (not_lt.mpr (le_of_lt h)), if_pos h]
      ring

theorem bround_nonneg {y : ℚ} (hy : 0 ≤ y) : 0 ≤ bround y := by
  rw [bround_def]
  have h0 : 0 ≤ ⌊y⌋ := Int.floor_nonneg.mpr hy
  split_ifs <;> omega

theorem bround_le_of_le {y : ℚ} {N : ℤ} (hy : y ≤ (N : ℚ)) : bround y ≤ N := by
  have hfl : ⌊y⌋ ≤ N := by
    have := Int.floor_le_floor hy
    rwa [Int.floor_intCast] at this
  rw [bround_def]
  split_ifs with h1 h2 h3
  · exact hfl
  · have hpos : (⌊y⌋ : ℚ) < y := by
      have := Int.self_sub_floor y
      nlinarith [Int.fract_nonneg y]
    have : (⌊y⌋ : ℚ) < (N : ℚ) := lt_of_lt_of_le hpos hy
    have : ⌊y⌋ < N := by exact_mod_cast this
    omega
  · exact hfl
  · have hfr : Int.fract y = 1/2 := le_antisymm (not_lt.mp h2) (not_lt.mp h1)
    have hpos : (⌊y⌋ : ℚ) < y := by
      have := Int.self_sub_floor y
      rw [hfr] at this
      linarith
    have : (⌊y⌋ : ℚ) < (N : ℚ) := lt_of_lt_of_le hpos hy
    have : ⌊y⌋ < N := by exact_mod_cast this
    omega

theorem round2_add_compl (x : ℚ) : round2 x + round2 (100 - x) = 100 := by
  unfold round2
  have h : (100 - x) * 100 = 10000 - x * 100 := by ring
  rw [h, bround_compl]
  push_cast
  ring

theorem round2_nonneg {x : ℚ} (hx : 0 ≤ x) : 0 ≤ round2 x := by
  unfold round2
  have hb : (0 : ℤ) ≤ bround (x * 100) := bround_nonneg (by nlinarith)
  have : (0 : ℚ) ≤ ((bround (x * 100) : ℤ) : ℚ) := by exact_mod_cast hb
  positivity

theorem round2_le_100 {x : ℚ} (hx : x ≤ 100) : round2 x ≤ 100 := by
  unfold round2
  have hb : bround (x * 100) ≤ (10000 : ℤ) := by
    refine bround_le_of_le ?_
    push_cast
    nlinarith
  rw [div_le_iff₀ (by norm_num : (0 : ℚ) < 100)]
  calc ((bround (x * 100) : ℤ) : ℚ) ≤ ((10000 : ℤ) : ℚ) := by exact_mod_cast hb
    _ = 100 * 100 := by norm_num

theorem round2_int (n : ℤ) : round2 ((n : ℤ) : ℚ) = ((n : ℤ) : ℚ) := by
  unfold round2
  have h : ((n : ℤ) : ℚ) * 100 = ((n * 100 : ℤ) : ℚ) := by push_cast; ring
  rw [h, bround_intCast]
  push_cast
  ring

/-! ## C3: conversion and drop-off rates -/

theorem mkFunnelRow_fields (σ : Storage) (cutoff : String) (st : FunnelStage)
    (exits : Nat) :
    (mkFunnelRow σ cutoff st exits).conversion_rate
        = round2 (if entryCount σ cutoff st.entry_event = 0 then 0
            else (exits : ℚ) / (entryCount σ cutoff st.entry_event : ℚ) * 100)
    ∧ (mkFunnelRow σ cutoff st exits).drop_off_rate
        = round2 (100 - (if entryCount σ cutoff st.entry_event = 0 then 0
            else (exits : ℚ) / (entryCount σ cutoff st.entry_event : ℚ) * 100))
    ∧ (mkFunnelRow σ cutoff st exits).entry_count
        = entryCount σ cutoff st.entry_event
    ∧ (mkFunnelRow σ cutoff st exits).exit_count = exits :=
  ⟨rfl, rfl, rfl, rfl⟩

theorem mkFunnelRow_rates (σ : Storage) (cutoff : String) (st : FunnelStage)
    (exits : Nat) :
    (mkFunnelRow σ cutoff st exits).conversion_rate
        + (mkFunnelRow σ cutoff st exits).drop_off_rate = 100
    ∧ 0 ≤ (mkFunnelRow σ cutoff st exits).conversion_rate
    ∧ (mkFunnelRow σ cutoff st exits).drop_off_rate ≤ 100
    ∧ ((mkFunnelRow σ cutoff st exits).exit_count
          ≤ (mkFunnelRow σ cutoff st exits).entry_count →
        (mkFunnelRow σ cutoff st exits).conversion_rate ≤ 100
          ∧ 0 ≤ (mkFunnelRow σ cutoff st exits).drop_off_rate) := by
  obtain ⟨hcr, hdr, hen, hex⟩ := mkFunnelRow_fields σ cutoff st exits
  rw [hcr, hdr, hen, hex]
  have hc0 : (0 : ℚ) ≤
      (if entryCount σ cutoff st.entry_event = 0 then 0
       else (exits : ℚ) / (entryCount σ cutoff st.entry_event : ℚ) * 100) := by
    split_ifs with h
    · exact le_refl 0
    · positivity
  refine ⟨round2_add_compl _, round2_nonneg hc0, round2_le_100 (by linarith), ?_⟩
  intro hle
  have hc100 : (if entryCount σ cutoff st.entry_event = 0 then (0 : ℚ)
       else (exits : ℚ) / (entryCount σ cutoff st.entry_event : ℚ) * 100) ≤ 100 := by
    split_ifs with h
    · norm_num
    · have hpos : (0 : ℚ) < (entryCount σ cutoff st.entry_event : ℚ) := by
        exact_mod_cast Nat.pos_of_ne_zero h
      have hq : (exits : ℚ) ≤ (entryCount σ cutoff st.entry_event : ℚ) := by
        exact_mod_cast hle
      have hdiv : (exits : ℚ) / (entryCount σ cutoff st.entry_event : ℚ) ≤ 1 :=
        (div_le_one hpos).mpr hq
      nlinarith
  exact ⟨round2_le_100 hc100, round2_nonneg (by linarith)⟩

theorem funnelRows_mem_shape (σ : Storage) (cutoff : String) :
    ∀ ss : List FunnelStage, ∀ row ∈ funnelRows σ cutoff ss,
      ∃ st e, row = mkFunnelRow σ cutoff st e := by
  intro ss
  induction ss with
  | nil => intro row h; simp [funnelRows] at h
  | cons st l ih =>
      intro row h
      cases l with
      | nil =>
          rw [funnelRows] at h
          rcases List.mem_singleton.mp h with rfl
          exact ⟨st, _, rfl⟩
      | cons st2 rest =>
          rw [funnelRows] at h
          rcases List.mem_cons.mp h with rfl | h2
          · exact ⟨st, _, rfl⟩
          · exact ih row h2

/-- C3 (amended): every stage's `conversion_rate` and `drop_off_rate` sum to
100, the conversion rate is nonnegative and the drop-off rate at most 100;
both lie in `[0, 100]` whenever the stage's exit count does not exceed its
entry count (the unconditional `[0, 100]` bound of the claim fails, see the
counterexample). -/
theorem c3_funnel_rates (σ : Storage) (cutoff : String) (i : Nat)
    (d : FunnelRow) (hi : i < (analyze_funnel σ cutoff).length) :
    ((analyze_funnel σ cutoff).getD i d).conversion_rate
        + ((analyze_funnel σ cutoff).getD i d).drop_off_rate = 100
    ∧ 0 ≤ ((analyze_funnel σ cutoff).getD i d).conversion_rate
    ∧ ((analyze_funnel σ cutoff).getD i d).drop_off_rate ≤ 100
    ∧ (((analyze_funnel σ cutoff).getD i d).exit_count
          ≤ ((analyze_funnel σ cutoff).getD i d).entry_count →
        ((analyze_funnel σ cutoff).getD i d).conversion_rate ≤ 100
          ∧ 0 ≤ ((analyze_funnel σ cutoff).getD i d).drop_off_rate) := by
  have hmem : (analyze_funnel σ cutoff).getD i d ∈ analyze_funnel σ cutoff := by
    rw [List.getD_eq_getElem _ _ hi]
    exact List.getElem_mem hi
  obtain ⟨st, e, heq⟩ := funnelRows_mem_shape σ cutoff _ _ hmem
  rw [heq]
  exact mkFunnelRow_rates σ cutoff st e

/-- C3 counterexample: in `storageA` stage A's chained exit count (2)
exceeds its entry count (1), so the reported conversion rate is 200 and the
drop-off rate is -100 — outside `[0, 100]`. -/
theorem c3_funnel_rates_counterexample :
    ((analyze_funnel storageA "").getD 0 defaultRow).conversion_rate = 200
    ∧ ((analyze_funnel storageA "").getD 0 defaultRow).drop_off_rate = -100
    ∧ ((analyze_funnel storageA "").getD 0 defaultRow).drop_off_rate < 0 := by
  have hsort : stagesByPosition storageA.funnel_stages =
      [sampleStage "fs1" "A" 1 "a", sampleStage "fs2" "B" 2 "b"] := by decide
  have hrow : (analyze_funnel storageA "").getD 0 defaultRow =
      mkFunnelRow storageA "" (sampleStage "fs1" "A" 1 "a")
        (entryCount storageA "" "b") := by
    rw [analyze_funnel, hsort]
    rfl
  have he1 : entryCount storageA "" "a" = 1 := by decide
  have he2 : entryCount storageA "" "b" = 2 := by decide
  have hev : (sampleStage "fs1" "A" 1 "a").entry_event = "a" := rfl
  have hcr : (mkFunnelRow storageA "" (sampleStage "fs1" "A" 1 "a")
      (entryCount storageA "" "b")).conversion_rate = round2 200 := by
    simp only [mkFunnelRow, hev, he1, he2]
    norm_num
  have hdr : (mkFunnelRow storageA "" (sampleStage "fs1" "A" 1 "a")
      (entryCount storageA "" "b")).drop_off_rate = round2 (-100) := by
    simp only [mkFunnelRow, hev, he1, he2]
    norm_num
  have h200 : round2 (200 : ℚ) = 200 := by
    have := round2_int (200 : ℤ)
    norm_num at this
    exact this
  have hneg : round2 (-100 : ℚ) = -100 := by
    have := round2_int (-100 : ℤ)
    norm_num at this
    exact this
  rw [hrow, hcr, hdr, h200, hneg]
  norm_num

/-! ## C4: exit-count chaining -/

theorem funnelRows_length (σ : Storage) (cutoff : String) :
    ∀ ss : List FunnelStage, (funnelRows σ cutoff ss).length = ss.length := by
  intro ss
  induction ss with
  | nil => rfl
  | cons st l ih =>
      cases l with
      | nil => rfl
      | cons st2 rest =>
          rw [funnelRows]
          simp only [List.length_cons]
          rw [ih]
          simp

theorem funnelRows_head_entry (σ : Storage) (cutoff : String) (st : FunnelStage)
    (l : List FunnelStage) (d : FunnelRow) :
    ((funnelRows σ cutoff (st :: l)).getD 0 d).entry_count
      = entryCount σ cutoff st.entry_event := by
  cases l with
  | nil => rfl
  | cons st2 rest => rfl

theorem funnelRows_exit_chain (σ : Storage) (cutoff : String) :
    ∀ (ss : List FunnelStage) (i : Nat) (d : FunnelRow),
      i + 1 < (funnelRows σ cutoff ss).length →
      ((funnelRows σ cutoff ss).getD i d).exit_count
        = ((funnelRows σ cutoff ss).getD (i + 1) d).entry_count := by
  intro ss
  induction ss with
  | nil => intro i d h; simp [funnelRows] at h
  | cons st l ih =>
      intro i d h
      cases l with
      | nil => simp [funnelRows] at h
      | cons st2 rest =>
          rw [funnelRows] at h ⊢
          cases i with
          | zero =>
              rw [List.getD_cons_zero, List.getD_cons_succ]
              rw [funnelRows_head_entry]
              rfl
          | succ j =>
              rw [List.getD_cons_succ, List.getD_cons_succ]
              refine ih j d ?_
              simp only [List.length_cons] at h
              omega

theorem funnelRows_exit_last (σ : Storage) (cutoff : String) :
    ∀ (ss : List FunnelStage) (i : Nat) (d : FunnelRow) (dst : FunnelStage),
      i + 1 = (funnelRows σ cutoff ss).length →
      ((funnelRows σ cutoff ss).getD i d).exit_count
        = lastStageExit σ cutoff ((ss.getD i dst).entry_event) := by
  intro ss
  induction ss with
  | nil => intro i d dst h; simp [funnelRows] at h
  | cons st l ih =>
      intro i d dst h
      cases l with
      | nil =>
          have hi : i = 0 := by
            simp [funnelRows] at h
            omega
          subst hi
          rfl
      | cons st2 rest =>
          rw [funnelRows] at h ⊢
          simp only [List.length_cons] at h
          have hlen := funnelRows_length σ cutoff (st2 :: rest)
          cases i with
          | zero =>
              simp only [List.length_cons] at hlen
              omega
          | succ j =>
              rw [List.getD_cons_succ, List.getD_cons_succ]
              refine ih j d dst ?_
              omega

/-- C4: in the funnel analysis, every non-last stage's `exit_count` equals
the next stage's `entry_count`, and the last stage's `exit_count` is the
count of distinct converted in-window sessions having a touchpoint whose
`event_type` equals that stage's `entry_event`. -/
theorem c4_exit_counts (σ : Storage) (cutoff : String) (i : Nat)
    (d : FunnelRow) (dst : FunnelStage) :
    (i + 1 < (analyze_funnel σ cutoff).length →
      ((analyze_funnel σ cutoff).getD i d).exit_count
        = ((analyze_funnel σ cutoff).getD (i + 1) d).entry_count)
    ∧ (i + 1 = (analyze_funnel σ cutoff).length →
      ((analyze_funnel σ cutoff).getD i d).exit_count
        = lastStageExit σ cutoff
            (((stagesByPosition σ.funnel_stages).getD i dst).entry_event)) :=
  ⟨fun h => funnelRows_exit_chain σ cutoff _ i d h,
   fun h => funnelRows_exit_last σ cutoff _ i d dst h⟩

/-- Closed instance of C4 on `storageA`: stage A's exit count is stage B's
entry count, and stage B's exit count is the converted-session count. -/
theorem c4_exit_counts_witness :
    ((analyze_funnel storageA "").getD 0 defaultRow).exit_count
        = ((analyze_funnel storageA "").getD 1 defaultRow).entry_count
    ∧ ((analyze_funnel storageA "").getD 1 defaultRow).exit_count
        = lastStageExit storageA ""
            (((stagesByPosition storageA.funnel_stages).getD 1 defaultStage).entry_event) :=
  ⟨(c4_exit_counts storageA "" 0 defaultRow defaultStage).1 (by decide),
   (c4_exit_counts storageA "" 1 defaultRow defaultStage).2 (by decide)⟩

/-- Closed instance of C3 (amended) at stage B of `storageA`. -/
theorem c3_funnel_rates_witness :
    ((analyze_funnel storageA "").getD 1 defaultRow).conversion_rate
        + ((analyze_funnel storageA "").getD 1 defaultRow).drop_off_rate = 100 :=
  (c3_funnel_rates storageA "" 1 defaultRow (by decide)).1

/-! ## C5: LTV segmentation -/

theorem foldl_min_le_init : ∀ (l : List ℚ) (a : ℚ), l.foldl min a ≤ a := by
  intro l
  induction l with
  | nil => intro a; exact le_refl a
  | cons x xs ih =>
      intro a
      calc (x :: xs).foldl min a = xs.foldl min (min a x) := rfl
        _ ≤ min a x := ih (min a x)
        _ ≤ a := min_le_left a x

theorem foldl_min_le_mem : ∀ (l : List ℚ) (a : ℚ) (x : ℚ), x ∈ l →
    l.foldl min a ≤ x := by
  intro l
  induction l with
  | nil => intro a x hx; simp at hx
  | cons y ys ih =>
      intro a x hx
      rcases List.mem_cons.mp hx with rfl | hx'
      · calc (x :: ys).foldl min a = ys.foldl min (min a x) := rfl
          _ ≤ min a x := foldl_min_le_init ys (min a x)
          _ ≤ x := min_le_right a x
      · exact ih (min a y) x hx'

theorem foldl_max_init_le : ∀ (l : List ℚ) (a : ℚ), a ≤ l.foldl max a := by
  intro l
  induction l with
  | nil => intro a; exact le_refl a
  | cons x xs ih =>
      intro a
      calc a ≤ max a x := le_max_left a x
        _ ≤ xs.foldl max (max a x) := ih (max a x)
        _ = (x :: xs).foldl max a := rfl

theorem foldl_max_mem_le : ∀ (l : List ℚ) (a : ℚ) (x : ℚ), x ∈ l →
    x ≤ l.foldl max a := by
  intro l
  induction l with
  | nil => intro a x hx; simp at hx
  | cons y ys ih =>
      intro a x hx
      rcases List.mem_cons.mp hx with rfl | hx'
      · calc x ≤ max a x := le_max_right a x
          _ ≤ ys.foldl max (max a x) := foldl_max_init_le ys (max a x)
          _ = (x :: ys).foldl max a := rfl
      · exact ih (max a y) x hx'

theorem ltv_min_max_bound (σ : Storage) {t : ℚ}
    (ht : t ∈ (ltvRows σ).map Prod.snd) : ltvMin σ ≤ t ∧ t ≤ ltvMax σ := by
  cases heq : ltvRows σ with
  | nil => rw [heq] at ht; simp at ht
  | cons r rs =>
      rw [heq] at ht
      constructor
      · show ltvMin σ ≤ t
        unfold ltvMin
        rw [heq]
        exact foldl_min_le_mem _ _ _ ht
      · show t ≤ ltvMax σ
        unfold ltvMax
        rw [heq]
        exact foldl_max_mem_le _ _ _ ht

theorem ltvMin_le_ltvMax (σ : Storage) (hne : ltvRows σ ≠ []) :
    ltvMin σ ≤ ltvMax σ := by
  cases heq : ltvRows σ with
  | nil => exact absurd heq hne
  | cons r rs =>
      have hmem : r.2 ∈ (ltvRows σ).map Prod.snd := by
        rw [heq]; exact List.mem_map_of_mem Prod.snd (List.mem_cons_self r rs)
      have h := ltv_min_max_bound σ hmem
      linarith [h.1, h.2]

theorem ltvWidth_pos (σ : Storage) (b : Nat) (hb : 0 < b) : 0 < ltvWidth σ b := by
  unfold ltvWidth
  split_ifs with h
  · exact div_pos (by linarith) (by exact_mod_cast hb)
  · norm_num

theorem ltvMax_le_top (σ : Storage) (b : Nat) (hb : 0 < b)
    (hne : ltvRows σ ≠ []) : ltvMax σ ≤ ltvMin σ + (b : ℚ) * ltvWidth σ b := by
  unfold ltvWidth
  split_ifs with h
  · have hb' : (b : ℚ) ≠ 0 := by
      exact_mod_cast Nat.pos_iff_ne_zero.mp hb
    rw [mul_div_cancel₀ _ hb']
    linarith
  · have hmm := ltvMin_le_ltvMax σ hne
    have h1 : (1 : ℚ) ≤ (b : ℚ) := by exact_mod_cast hb
    nlinarith

theorem inBucket_exists (σ : Storage) (b : Nat) (hb : 0 < b)
    (hne : ltvRows σ ≠ []) (x : ℚ) (h1 : ltvMin σ ≤ x) (h2 : x ≤ ltvMax σ) :
    ∃ i, i < b ∧ inBucket σ b i x := by
  have hw := ltvWidth_pos σ b hb
  have htop := ltvMax_le_top σ b hb hne
  have hcast : ((b - 1 : Nat) : ℚ) = (b : ℚ) - 1 := by
    rw [Nat.cast_sub hb]
    norm_num
  by_cases hlast : ltvMin σ + ((b - 1 : Nat) : ℚ) * ltvWidth σ b ≤ x
  · refine ⟨b - 1, by omega, hlast, ?_⟩
    rw [if_pos rfl]
    have : ((b - 1 : Nat) : ℚ) * ltvWidth σ b + ltvWidth σ b
        = (b : ℚ) * ltvWidth σ b := by
      rw [hcast]; ring
    linarith
  · push_neg at hlast
    set w := ltvWidth σ b with hwdef
    set m := ltvMin σ with hmdef
    have hknn : (0 : ℚ) ≤ (x - m) / w := div_nonneg (by linarith) (le_of_lt hw)
    set k := ⌊(x - m) / w⌋ with hkdef
    have hk0 : 0 ≤ k := Int.floor_nonneg.mpr hknn
    have hlow : (k : ℚ) ≤ (x - m) / w := Int.floor_le _
    have hhigh : (x - m) / w < (k : ℚ) + 1 := Int.lt_floor_add_one _
    have hklt : (k : ℚ) < (b : ℚ) - 1 := by
      have hq : (x - m) / w < (b : ℚ) - 1 := by
        rw [div_lt_iff₀ hw]
        rw [hcast] at hlast
        nlinarith
      linarith
    refine ⟨k.toNat, ?_, ?_, ?_⟩
    · have : k < (b : ℤ) - 1 := by exact_mod_cast hklt
      omega
    · have hc : ((k.toNat : Nat) : ℚ) = (k : ℚ) := by
        exact_mod_cast Int.toNat_of_nonneg hk0
      rw [hc]
      have hxlow : (k : ℚ) * w ≤ x - m := (le_div_iff₀ hw).mp hlow
      linarith
    · have hknb : k.toNat ≠ b - 1 := by
        have : k < (b : ℤ) - 1 := by exact_mod_cast hklt
        omega
      rw [if_neg hknb]
      have hc : ((k.toNat : Nat) : ℚ) = (k : ℚ) := by
        exact_mod_cast Int.toNat_of_nonneg hk0
      rw [hc]
      have hx2 : x - m < ((k : ℚ) + 1) * w := by
        rw [← div_lt_iff₀ hw]
        exact hhigh
      nlinarith

theorem inBucket_lt_of_lt (σ : Storage) (b : Nat) (hw : 0 < ltvWidth σ b)
    {i j : Nat} (hij : i < j) (hj : j < b) (x : ℚ)
    (hxi : inBucket σ b i x) (hxj : inBucket σ b j x) : False := by
  obtain ⟨hi1, hi2⟩ := hxi
  obtain ⟨hj1, _⟩ := hxj
  have hine : i ≠ b - 1 := by omega
  rw [if_neg hine] at hi2
  have hmono : ((i : ℚ) + 1) * ltvWidth σ b ≤ (j : ℚ) * ltvWidth σ b := by
    have : ((i : ℚ) + 1) ≤ (j : ℚ) := by exact_mod_cast hij
    nlinarith
  nlinarith

theorem inBucket_unique (σ : Storage) (b : Nat) (hw : 0 < ltvWidth σ b)
    {i j : Nat} (hi : i < b) (hj : j < b) (x : ℚ)
    (hxi : inBucket σ b i x) (hxj : inBucket σ b j x) : i = j := by
  rcases lt_trichotomy i j with h | h | h
  · exact absurd (inBucket_lt_of_lt σ b hw h hj x hxi hxj) (by simp)
  · exact h
  · exact absurd (inBucket_lt_of_lt σ b hw h hi x hxj hxi) (by simp)

theorem ltvSegment_lo (σ : Storage) (b i : Nat) :
    (ltvSegment σ b i).lo = ltvMin σ + (i : ℚ) * ltvWidth σ b := rfl

theorem ltvSegment_hi (σ : Storage) (b i : Nat) :
    (ltvSegment σ b i).hi
      = ltvMin σ + (i : ℚ) * ltvWidth σ b + ltvWidth σ b := rfl

theorem segments_getD (σ : Storage) (b i : Nat) (hb : i < b)
    (hne : ltvRows σ ≠ []) :
    (compute_customer_ltv_segments σ b).getD i defaultSegment
      = ltvSegment σ b i := by
  rw [compute_customer_ltv_segments, if_neg hne]
  have hlen : i < ((List.range b).map (ltvSegment σ b)).length := by
    simpa using hb
  rw [List.getD_eq_getElem _ _ hlen, List.getElem_map, List.getElem_range]

/-- C5: on a non-empty converted-customer set with `b ≥ 1` buckets, the
bucket width is `(max-min)/b` (1 when all totals are equal), the reported
buckets are the adjacent intervals `[min + i·w, min + (i+1)·w]` —
half-open except the closed last one — every customer's total lies in
exactly one bucket's range, and the ranges cover `[min, max]` with no
gaps. -/
theorem c5_ltv_segments (σ : Storage) (b : Nat) (hb : 0 < b)
    (hne : ltvRows σ ≠ []) :
    (compute_customer_ltv_segments σ b).length = b
    ∧ (ltvMin σ < ltvMax σ →
        ltvWidth σ b = (ltvMax σ - ltvMin σ) / (b : ℚ))
    ∧ (¬ ltvMin σ < ltvMax σ → ltvWidth σ b = 1)
    ∧ (∀ i, i < b →
        ((compute_customer_ltv_segments σ b).getD i defaultSegment).lo
            = ltvMin σ + (i : ℚ) * ltvWidth σ b
          ∧ ((compute_customer_ltv_segments σ b).getD i defaultSegment).hi
            = ltvMin σ + (i : ℚ) * ltvWidth σ b + ltvWidth σ b)
    ∧ (∀ i, i + 1 < b →
        ((compute_customer_ltv_segments σ b).getD i defaultSegment).hi
          = ((compute_customer_ltv_segments σ b).getD (i + 1) defaultSegment).lo)
    ∧ (∀ cid ∈ ltvCustomers σ,
        ∃! i, i < b ∧ inBucket σ b i (customerLtv σ cid))
    ∧ (∀ x : ℚ, ltvMin σ ≤ x → x ≤ ltvMax σ →
        ∃ i, i < b ∧ inBucket σ b i x) := by
  refine ⟨?_, ?_, ?_, ?_, ?_, ?_, ?_⟩
  · rw [compute_customer_ltv_segments, if_neg hne]
    simp
  · intro h
    unfold ltvWidth
    rw [if_pos h]
  · intro h
    unfold ltvWidth
    rw [if_neg h]
  · intro i hib
    rw [segments_getD σ b i hib hne]
    exact ⟨ltvSegment_lo σ b i, ltvSegment_hi σ b i⟩
  · intro i hib
    rw [segments_getD σ b i (by omega) hne, segments_getD σ b (i + 1) hib hne,
      ltvSegment_hi, ltvSegment_lo]
    push_cast
    ring
  · intro cid hcid
    have hmem : customerLtv σ cid ∈ (ltvRows σ).map Prod.snd := by
      rw [ltvRows, List.map_map]
      exact List.mem_map_of_mem _ hcid
    obtain ⟨hlo, hhi⟩ := ltv_min_max_bound σ hmem
    obtain ⟨i, hib, hin⟩ := inBucket_exists σ b hb hne _ hlo hhi
    exact ⟨i, ⟨hib, hin⟩, fun j ⟨hjb, hjn⟩ =>
      inBucket_unique σ b (ltvWidth_pos σ b hb) hjb hib _ hjn hin⟩
  · exact inBucket_exists σ b hb hne

/-- Closed instance of C5 on `storageLtv` with 2 buckets. -/
theorem c5_ltv_segments_witness :
    (compute_customer_ltv_segments storageLtv 2).length = 2 :=
  (c5_ltv_segments storageLtv 2 (by decide) (by decide)).1

/-! ## C7: journey heatmap -/

theorem parseTime_lt (cs : List Char) (hh : Nat) (h : parseTime cs = some hh) :
    hh < 24 := by
  cases cs with
  | nil =>
      simp only [parseTime, Option.some_inj] at h
      omega
  | cons a t =>
      cases t with
      | nil => simp [parseTime] at h
      | cons c1 t1 =>
          cases t1 with
          | nil => simp [parseTime] at h
          | cons c2 rest =>
              simp only [parseTime] at h
              cases hd : digit2 c1 c2 with
              | none => simp [hd] at h
              | some v =>
                  simp only [hd] at h
                  by_cases hok : (decide (v ≤ 23) && minSecOk rest) = true
                  · rw [if_pos hok] at h
                    obtain rfl : v = hh := by injection h
                    simp only [Bool.and_eq_true, decide_eq_true_eq] at hok
                    omega
                  · rw [if_neg hok] at h; cases h

theorem parseTs_bounds (s : String) (d h : Nat)
    (hp : parseTs s = some (d, h)) : d < 7 ∧ h < 24 := by
  unfold parseTs at hp
  cases hd10 : parseDate10 s.data with
  | none => simp [hd10] at hp
  | some q =>
      obtain ⟨y, mo, dy, rest⟩ := q
      simp only [hd10] at hp
      cases ht : parseTime rest with
      | none => simp [ht] at hp
      | some hh =>
          simp only [ht] at hp
          by_cases hv : validDate y mo dy = true
          · rw [if_pos hv] at hp
            have hpair : pyWeekday y mo dy = d ∧ hh = h := by
              have := Option.some_inj.mp hp
              exact ⟨congrArg Prod.fst this, congrArg Prod.snd this⟩
            obtain ⟨hd_eq, hh_eq⟩ := hpair
            constructor
            · rw [← hd_eq]
              unfold pyWeekday
              have hnn : 0 ≤ (daysFromCivil y mo dy + 3) % 7 :=
                Int.emod_nonneg _ (by norm_num)
              have hlt : (daysFromCivil y mo dy + 3) % 7 < 7 :=
                Int.emod_lt_of_pos _ (by norm_num)
              omega
            · rw [← hh_eq]
              exact parseTime_lt rest hh ht
          · rw [if_neg hv] at hp; cases hp

/-- Shape invariant of the heatmap matrix: 7 rows of 24 cells. -/
def MatrixShape (m : List (List Nat)) : Prop :=
  m.length = 7 ∧ ∀ r ∈ m, r.length = 24

theorem matrixShape_empty : MatrixShape emptyMatrix := by
  constructor
  · rfl
  · intro r hr
    rw [emptyMatrix] at hr
    rw [List.eq_of_mem_replicate hr]
    rfl

theorem matrixShape_bumpMatrix {m : List (List Nat)} (hs : MatrixShape m)
    (d h : Nat) : MatrixShape (bumpMatrix m d h) := by
  obtain ⟨hlen, hrow⟩ := hs
  constructor
  · rw [bumpMatrix, List.length_set, hlen]
  · intro r hr
    by_cases hd : d < m.length
    · rcases List.mem_or_eq_of_mem_set hr with hmem | rfl
      · exact hrow r hmem
      · rw [bumpRow, List.length_set]
        exact hrow _ (by rw [List.getD_eq_getElem _ _ hd]; exact List.getElem_mem hd)
    · rw [bumpMatrix, List.set_eq_of_length_le (le_of_not_lt hd)] at hr
      exact hrow r hr

theorem sum_bumpRow (l : List Nat) (h : Nat) (hh : h < l.length) :
    (bumpRow l h).sum = l.sum + 1 := by
  induction l generalizing h with
  | nil => simp at hh
  | cons x xs ih =>
      cases h with
      | zero =>
          show ((x + 1) :: xs).sum = (x :: xs).sum + 1
          simp only [List.sum_cons]
          omega
      | succ j =>
          have hj : j < xs.length := by simpa using hh
          show (x :: bumpRow xs j).sum = (x :: xs).sum + 1
          simp only [List.sum_cons, ih j hj]
          omega

theorem matrixTotal_set_bump : ∀ (m : List (List Nat)) (d h : Nat),
    d < m.length → h < (m.getD d []).length →
    matrixTotal (bumpMatrix m d h) = matrixTotal m + 1 := by
  intro m
  induction m with
  | nil => intro d h hd hh; simp at hd
  | cons r rs ih =>
      intro d h hd hh
      cases d with
      | zero =>
          show matrixTotal (bumpRow r h :: rs) = matrixTotal (r :: rs) + 1
          simp only [matrixTotal, List.map_cons, List.sum_cons]
          rw [sum_bumpRow r h (by simpa using hh)]
          omega
      | succ j =>
          have hjd : j < rs.length := by simpa using hd
          have hjh : h < (rs.getD j []).length := by simpa using hh
          show matrixTotal (r :: bumpMatrix rs j h) = matrixTotal (r :: rs) + 1
          simp only [matrixTotal, List.map_cons, List.sum_cons]
          have hrec := ih j h hjd hjh
          simp only [matrixTotal] at hrec
          omega

theorem matrixTotal_bumpMatrix {m : List (List Nat)} (hs : MatrixShape m)
    {d h : Nat} (hd : d < 7) (hh : h < 24) :
    matrixTotal (bumpMatrix m d h) = matrixTotal m + 1 := by
  obtain ⟨hlen, hrow⟩ := hs
  have hdm : d < m.length := by omega
  have hrowlen : (m.getD d []).length = 24 := by
    rw [List.getD_eq_getElem _ _ hdm]
    exact hrow _ (List.getElem_mem hdm)
  exact matrixTotal_set_bump m d h hdm (by omega)

theorem heatFold_spec (tps : List Touchpoint) :
    ∀ m : List (List Nat), MatrixShape m →
      MatrixShape (tps.foldl heatStep m) ∧
      matrixTotal (tps.foldl heatStep m)
        = matrixTotal m
            + (tps.filter (fun tp => (parseTs tp.timestamp).isSome)).length := by
  induction tps with
  | nil => intro m hm; exact ⟨hm, by simp⟩
  | cons tp rest ih =>
      intro m hm
      rw [List.foldl_cons]
      cases hp : parseTs tp.timestamp with
      | none =>
          have hstep : heatStep m tp = m := by rw [heatStep, hp]
          rw [hstep]
          obtain ⟨h1, h2⟩ := ih m hm
          refine ⟨h1, ?_⟩
          rw [h2, List.filter_cons]
          simp [hp]
      | some dh =>
          obtain ⟨d, h⟩ := dh
          obtain ⟨hd7, hh24⟩ := parseTs_bounds tp.timestamp d h hp
          have hstep : heatStep m tp = bumpMatrix m d h := by rw [heatStep, hp]
          rw [hstep]
          obtain ⟨h1, h2⟩ := ih (bumpMatrix m d h) (matrixShape_bumpMatrix hm d h)
          refine ⟨h1, ?_⟩
          rw [h2, matrixTotal_bumpMatrix hm hd7 hh24, List.filter_cons]
          simp only [hp, Option.isSome_some, if_pos]
          simp [Nat.add_comm, Nat.add_assoc, Nat.add_left_comm]

/-- C7: the heatmap's `total_touchpoints` equals the sum of all 7×24 matrix
cells, which equals the number of in-window touchpoints whose timestamps
parse; malformed timestamps are skipped without affecting anything else;
the matrix is 7 days × 24 hours with day 0 = Monday and day 6 = Sunday
(2024-01-01 was a Monday, 2024-01-07 a Sunday, and an unparseable string is
ignored). -/
theorem c7_heatmap_totals (σ : Storage) (cutoff : String) :
    (get_journey_heatmap σ cutoff).total_touchpoints
        = matrixTotal (get_journey_heatmap σ cutoff).matrix
    ∧ (get_journey_heatmap σ cutoff).total_touchpoints
        = (σ.touchpoints.filter (fun tp =>
            inWindow tp.timestamp cutoff && (parseTs tp.timestamp).isSome)).length
    ∧ (get_journey_heatmap σ cutoff).matrix.length = 7
    ∧ (∀ r ∈ (get_journey_heatmap σ cutoff).matrix, r.length = 24)
    ∧ (get_journey_heatmap σ cutoff).day_labels
        = ["Mon", "Tue", "Wed", "Thu", "Fri", "Sat", "Sun"]
    ∧ parseTs "2024-01-01T00:00:00" = some (0, 0)
    ∧ parseTs "2024-01-07T09:30:00" = some (6, 9)
    ∧ parseTs "not-a-timestamp" = none := by
  obtain ⟨hshape, htotal⟩ :=
    heatFold_spec (σ.touchpoints.filter (fun tp => inWindow tp.timestamp cutoff))
      emptyMatrix matrixShape_empty
  refine ⟨rfl, ?_, hshape.1, hshape.2, rfl, by decide, by decide, by decide⟩
  show matrixTotal (heatMatrix _) = _
  rw [heatMatrix, htotal, List.filter_filter]
  simp only [matrixTotal, emptyMatrix, List.map_replicate, List.sum_replicate,
    List.sum_cons, smul_eq_mul, Nat.mul_zero, Nat.zero_add]
  exact congrArg List.length (List.filter_congr (fun a _ => Bool.and_comm _ _))

/-! ## C8, C9: dropoff aggregations -/

theorem countBy_total {α : Type} [DecidableEq α] (keys : List α) :
    ((countBy keys).map Prod.snd).sum = keys.length := by
  rw [countBy, List.map_map]
  exact List.sum_map_count_dedup_eq_length keys

theorem length_filterMap_eq_length_filter {α β : Type} (f : α → Option β)
    (l : List α) :
    (l.filterMap f).length = (l.filter (fun a => (f a).isSome)).length := by
  induction l with
  | nil => rfl
  | cons x xs ih =>
      cases hf : f x <;>
        simp [List.filterMap_cons, List.filter_cons, hf, ih]

theorem find?_isSome_eq_any {α : Type} (p : α → Bool) (l : List α) :
    (l.find? p).isSome = l.any p := by
  induction l with
  | nil => rfl
  | cons x xs ih =>
      by_cases hp : p x = true
      · simp [List.find?_cons_of_pos _ hp, hp]
      · have hp' : p x = false := by simpa using hp
        simp [List.find?_cons_of_neg _ hp, hp', ih]

/-- C8 (amended): the `reasons` and `time_of_day` groupings (and the
reported `total_dropoffs`) total to the number of dropoff events at the
stage; the `by_channel` grouping — which joins through `sessions` — totals
to the number of those events whose session row exists, so all three agree
whenever every dropoff's session is present (the unconditional agreement of
the claim fails on orphaned dropoffs, see the counterexample). -/
theorem c8_dropoff_aggregations (σ : Storage) (sid : String) :
    ((analyze_dropoffs σ sid).reasons.map Prod.snd).sum
        = (dropoffsAt σ sid).length
    ∧ ((analyze_dropoffs σ sid).time_of_day.map Prod.snd).sum
        = (dropoffsAt σ sid).length
    ∧ (analyze_dropoffs σ sid).total_dropoffs = (dropoffsAt σ sid).length
    ∧ ((analyze_dropoffs σ sid).by_channel.map Prod.snd).sum
        = ((dropoffsAt σ sid).filter
            (fun de => σ.sessions.any (fun s => s.id == de.session_id))).length
    ∧ ((∀ de ∈ dropoffsAt σ sid,
          σ.sessions.any (fun s => s.id == de.session_id)) →
        ((analyze_dropoffs σ sid).by_channel.map Prod.snd).sum
          = (dropoffsAt σ sid).length) := by
  have h1 : ((analyze_dropoffs σ sid).reasons.map Prod.snd).sum
      = (dropoffsAt σ sid).length := by
    show ((countBy ((dropoffsAt σ sid).map (fun de => de.reason))).map Prod.snd).sum = _
    rw [countBy_total, List.length_map]
  have h2 : ((analyze_dropoffs σ sid).time_of_day.map Prod.snd).sum
      = (dropoffsAt σ sid).length := by
    show ((countBy ((dropoffsAt σ sid).map
        (fun de => hourOfTs de.timestamp))).map Prod.snd).sum = _
    rw [countBy_total, List.length_map]
  have h4 : ((analyze_dropoffs σ sid).by_channel.map Prod.snd).sum
      = ((dropoffsAt σ sid).filter
          (fun de => σ.sessions.any (fun s => s.id == de.session_id))).length := by
    show ((countBy ((dropoffsAt σ sid).filterMap (fun de =>
        (σ.sessions.find? (fun s => s.id == de.session_id)).map
          (fun s => s.channel)))).map Prod.snd).sum = _
    rw [countBy_total, length_filterMap_eq_length_filter]
    congr 1
    apply List.filter_congr
    intro de _
    have hmap : ∀ o : Option Session,
        (Option.map (fun s => s.channel) o).isSome = o.isSome := by
      intro o; cases o <;> rfl
    rw [hmap]
    exact find?_isSome_eq_any _ _
  refine ⟨h1, h2, h1, h4, ?_⟩
  intro hall
  rw [h4, List.filter_eq_self.mpr hall]

/-- Closed instance of C8 on `storageDrop`, whose single dropoff's session
exists: the channel total agrees with the dropoff count. -/
theorem c8_dropoff_aggregations_witness :
    ((analyze_dropoffs storageDrop "stY").by_channel.map Prod.snd).sum
      = (dropoffsAt storageDrop "stY").length :=
  (c8_dropoff_aggregations storageDrop "stY").2.2.2.2 (by decide)

/-- C8 counterexample: `storageOrphan`'s single dropoff at stage "stX"
references a missing session, so the channel grouping totals 0 while the
reason grouping totals 1 — the three aggregations do not all equal the
number of dropoff events at the stage. -/
theorem c8_dropoff_aggregations_counterexample :
    ((analyze_dropoffs storageOrphan "stX").by_channel.map Prod.snd).sum = 0
    ∧ ((analyze_dropoffs storageOrphan "stX").reasons.map Prod.snd).sum = 1
    ∧ (dropoffsAt storageOrphan "stX").length = 1
    ∧ ((analyze_dropoffs storageOrphan "stX").by_channel.map Prod.snd).sum
        ≠ (dropoffsAt storageOrphan "stX").length := by
  refine ⟨by decide, by decide, by decide, by decide⟩

/-- C9: a `stage_id` present nowhere in storage yields the empty analysis:
no reasons, no hour pattern, no channels, zero total — not an error. -/
theorem c9_unknown_stage (σ : Storage) (sid : String)
    (_hs : ∀ st ∈ σ.funnel_stages, st.id ≠ sid)
    (hd : ∀ de ∈ σ.dropoff_events, de.stage_id ≠ sid) :
    analyze_dropoffs σ sid = ⟨sid, [], [], [], 0⟩ := by
  have hnil : dropoffsAt σ sid = [] := by
    rw [dropoffsAt, List.filter_eq_nil_iff]
    intro de hde
    rw [Bool.not_eq_true, beq_eq_false_iff_ne]
    exact hd de hde
  unfold analyze_dropoffs
  rw [hnil]
  rfl

/-- Closed instance of C9: the id "nope" appears nowhere in `storageA`. -/
theorem c9_unknown_stage_witness :
    analyze_dropoffs storageA "nope" = ⟨"nope", [], [], [], 0⟩ :=
  c9_unknown_stage storageA "nope" (by decide) (by decide)

/-! ## C10: LTV with no conversions -/

/-- C10: with no converted session in storage,
`compute_customer_ltv_segments` returns the empty list for every requested
bucket count. -/
theorem c10_ltv_empty (σ : Storage) (b : Nat)
    (h : ∀ s ∈ σ.sessions, s.converted = false) :
    compute_customer_ltv_segments σ b = [] := by
  have hconv : convertedSessions σ = [] := by
    rw [convertedSessions, List.filter_eq_nil_iff]
    intro s hs
    simp [h s hs]
  have hrows : ltvRows σ = [] := by
    rw [ltvRows, ltvCustomers, hconv]
    rfl
  rw [compute_customer_ltv_segments, if_pos hrows]

/-- Closed instance of C10 on `storageNoConv` with the default 5 buckets. -/
theorem c10_ltv_empty_witness :
    compute_customer_ltv_segments storageNoConv 5 = [] :=
  c10_ltv_empty storageNoConv 5 (by decide)

end CustomerJourney
